import Mathlib

/-!
Shallow embedding of the Messenger CLI manifest engine
(messengercli/messenger.py) together with proofs about its manifest
operations: API version gating on load, the scene / sceneproto / level
mutators, the remove command with its level cascade, the filesystem
reconciler (update_config), name normalization (check_name), and the
template token substitution engine (Updater).

Conventions of the embedding:
- The manifest (messenger.json) is a Lean structure; the Python dicts
  for scenes and sceneprotos become association lists of
  (name, record) pairs, preserving insertion order exactly as Python
  dicts do.  Dict assignment, membership and pop are embedded by
  setKey, hasKey and popKey below with the same semantics.
- Every `raise` site of the Python code becomes a constructor of the
  MErr type.  Mutators return an MResult carrying the in-memory
  manifest as the operation leaves it, the list of manifests persisted
  by dump_config calls (in order), the directories removed by
  shutil.rmtree (in order), and the raised error if any.
- File contents are lists of characters; the Python substring test
  (the `in` operator) and the regular-expression search of
  update_config are embedded by containsSub and searchProto.
- External collaborators (git, the template checkout, elm-format) are
  pure parameters: GitEnv records the replies update_config observes.
-/

namespace Messenger

/-- The API_VERSION constant of the tool. -/
def apiVersion : String := "1.2.0"

/-- The SCENE_DIR constant. -/
def sceneDirPath : String := "src/Scenes"

/-- The SCENEPROTO_DIR constant. -/
def sceneprotoDirPath : String := "src/SceneProtos"

/-- The command word for removing a scene. -/
def kScene : String := "scene"

/-- The command word for removing a sceneproto. -/
def kSceneproto : String := "sceneproto"

/-- Every exception site of messenger.py, one constructor per raise
site (plus the unhandled Python KeyError / ValueError that dict and
list operations can raise). -/
inductive MErr
  | noConfigFile
  | noVersionField
  | versionMismatch
  | protoNotFound
  | levelOrSceneExists
  | protoExists
  | sceneExists
  | sceneNotFound
  | protoHasLevels
  | keyError
  | valueError
deriving DecidableEq

/-- Drop a literal prefix from a character list; none when the list
does not start with it. -/
def chopLit : List Char → List Char → Option (List Char)
  | [], rest => some rest
  | _ :: _, [] => none
  | p :: ps, c :: cs => if c = p then chopLit ps cs else none

/-- Python substring containment, the `needle in hay` test. -/
def containsSub (needle : List Char) : List Char → Bool
  | [] => needle.isEmpty
  | c :: cs => (chopLit needle (c :: cs)).isSome || containsSub needle cs

/-- Word characters of the regular expression class backslash-w
(ASCII letters, digits and underscore; the names in play are ASCII). -/
def wordChar (c : Char) : Bool := c.isAlphanum || c = '_'

/-- The literal head of the import pattern of update_config. -/
def protoImportMark : List Char := ("import SceneProtos.").toList

/-- The literal tail of the import pattern of update_config. -/
def protoModelMark : List Char := (".Model").toList

/-- The marker substring meaning a scene was instantiated from a
prototype. -/
def levelInitMarker : List Char := ("LevelInit").toList

/-- The marker substring recording the raw flag. -/
def rawMarker : List Char := ("import Messenger.Scene.RawScene").toList

/-- Try the import pattern at the head of the text: the literal
"import SceneProtos.", a nonempty greedy run of word characters
(group 1), then the literal ".Model". -/
def matchProtoAt (l : List Char) : Option String :=
  match chopLit protoImportMark l with
  | none => none
  | some rest =>
    let run := rest.takeWhile wordChar
    if run.isEmpty then none
    else if (chopLit protoModelMark (rest.drop run.length)).isSome then
      some run.asString
    else none

/-- The re.search of the import pattern: first position, left to right,
where the pattern matches; returns group 1. -/
def searchProto : List Char → Option String
  | [] => none
  | c :: cs =>
    match matchProtoAt (c :: cs) with
    | some r => some r
    | none => searchProto cs

/-- Python code-point lexicographic string comparison, on character
lists. -/
def lexLt : List Char → List Char → Bool
  | [], [] => false
  | [], _ :: _ => true
  | _ :: _, [] => false
  | a :: as, b :: bs => if a < b then true else if b < a then false else lexLt as bs

/-- The os.path.join of a directory and an entry name. -/
def pathJoin (d n : String) : String := d ++ "/" ++ n

/-- Lookup in an association list, first match (Python dict access). -/
def lookup {α : Type} : List (String × α) → String → Option α
  | [], _ => none
  | (k, v) :: rest, key => if k = key then some v else lookup rest key

/-- Python `key in dict`. -/
def hasKey {α : Type} (m : List (String × α)) (k : String) : Bool :=
  (lookup m k).isSome

/-- Python dict assignment: replace in place when the key exists,
append otherwise. -/
def setKey {α : Type} : List (String × α) → String → α → List (String × α)
  | [], key, v => [(key, v)]
  | (k, w) :: rest, key, v =>
    if k = key then (key, v) :: rest else (k, w) :: setKey rest key v

/-- Python dict.pop of an existing key: drop the first entry with the
key. -/
def popKey {α : Type} : List (String × α) → String → List (String × α)
  | [], _ => []
  | (k, w) :: rest, key => if k = key then rest else (k, w) :: popKey rest key

/-- A sceneproto record of the manifest: raw flag and levels list. -/
structure SceneProto where
  raw : Bool
  levels : List String
deriving DecidableEq

/-- A scene record of the manifest: optional sceneproto back-reference
(the key is absent for plain scenes) and raw flag. -/
structure Scene where
  sceneproto : Option String
  raw : Bool
deriving DecidableEq

/-- The template_repo object of the manifest. -/
structure TemplateRepo where
  url : String
  tag : String
deriving DecidableEq

/-- The messenger.json manifest.  The version field is optional
because Messenger.__init__ checks its presence. -/
structure Config where
  version : Option String
  template_repo : TemplateRepo
  auto_commit : Bool
  scenes : List (String × Scene)
  sceneprotos : List (String × SceneProto)
deriving DecidableEq

/-- The constructor Messenger.__init__: load messenger.json (none when the file does
not exist), require the version field to be present and equal to
apiVersion; on success the loaded manifest is returned unchanged (no
in-place upgrade).  The subsequent template clone touches only the
.messenger checkout, never the manifest. -/
def messengerInit : Option Config → Except MErr Config
  | none => .error .noConfigFile
  | some c =>
    match c.version with
    | none => .error .noVersionField
    | some v => if v ≠ apiVersion then .error .versionMismatch else .ok c

/-- Outcome of one mutating command: the in-memory manifest as the
command leaves it, the manifests persisted by dump_config in order,
the directories removed by shutil.rmtree in order, and the raised
error if any. -/
structure MResult where
  config : Config
  dumps : List Config
  rmdirs : List String
  err : Option MErr
deriving DecidableEq

/-- The mutator Messenger.add_scene(scene, raw, is_proto, init): directory
creation and the template Updater runs touch only the filesystem; the
manifest gains one entry and is dumped once.  The init flag selects an
extra Init.elm template and does not affect the manifest. -/
def add_scene (c : Config) (scene : String) (raw is_proto init : Bool) : MResult :=
  if is_proto then
    if hasKey c.sceneprotos scene then ⟨c, [], [], some .protoExists⟩
    else
      let c1 := { c with sceneprotos := setKey c.sceneprotos scene ⟨raw, []⟩ }
      ⟨c1, [c1], [], none⟩
  else
    if hasKey c.scenes scene then ⟨c, [], [], some .sceneExists⟩
    else
      let c1 := { c with scenes := setKey c.scenes scene ⟨none, raw⟩ }
      ⟨c1, [c1], [], none⟩

/-- The mutator Messenger.add_level(name, sceneproto): the sceneproto must exist,
the name must not exist among scenes; the scene entry (with raw
inherited from the prototype, there is no raw parameter) is written
and dumped, then the name is appended to the prototype levels list and
dumped again. -/
def add_level (c : Config) (name sceneproto : String) : MResult :=
  match lookup c.sceneprotos sceneproto with
  | none => ⟨c, [], [], some .protoNotFound⟩
  | some proto =>
    if hasKey c.scenes name then ⟨c, [], [], some .levelOrSceneExists⟩
    else
      let c1 := { c with scenes := setKey c.scenes name ⟨some sceneproto, proto.raw⟩ }
      let c2 := { c1 with
        sceneprotos := setKey c1.sceneprotos sceneproto
          { proto with levels := proto.levels ++ [name] } }
      ⟨c2, [c1, c2], [], none⟩

/-- The cascade loop of the remove command with the remove-levels
flag: pop each level name from the scenes map (Python dict.pop raises
KeyError when the key is absent, leaving the earlier pops committed),
removing the level directory after each pop when the rm flag is set. -/
def popLevels (rm : Bool) : List (String × Scene) → List String →
    (List (String × Scene) × List String × Option MErr)
  | scenes, [] => (scenes, [], none)
  | scenes, l :: ls =>
    if hasKey scenes l then
      match popLevels rm (popKey scenes l) ls with
      | (s2, ds, e) => (s2, (if rm then [pathJoin sceneDirPath l] else []) ++ ds, e)
    else (scenes, [], some .keyError)

/-- The remove command: for a scene, detach it from its owning
sceneproto levels list when the back-reference key is present (Python
list.remove raises ValueError when the name is missing, dict access
raises KeyError when the prototype is missing), then pop it; for a
sceneproto with a nonempty levels list, refuse unless the
remove-levels flag is set, in which case all dependent scenes are
popped first and the prototype after; an unknown kind only prints.
dump_config runs once at the end of every non-raising path. -/
def removeCmd (c : Config) (type name : String) (rm rml : Bool) : MResult :=
  if type = kScene then
    match lookup c.scenes name with
    | none => ⟨c, [], [], some .sceneNotFound⟩
    | some sc =>
      match sc.sceneproto with
      | some sp =>
        match lookup c.sceneprotos sp with
        | none => ⟨c, [], [], some .keyError⟩
        | some proto =>
          if name ∈ proto.levels then
            let cA := { c with
              sceneprotos := setKey c.sceneprotos sp
                { proto with levels := proto.levels.erase name } }
            let cB := { cA with scenes := popKey cA.scenes name }
            ⟨cB, [cB], if rm then [pathJoin sceneDirPath name] else [], none⟩
          else ⟨c, [], [], some .valueError⟩
      | none =>
        let cB := { c with scenes := popKey c.scenes name }
        ⟨cB, [cB], if rm then [pathJoin sceneDirPath name] else [], none⟩
  else if type = kSceneproto then
    match lookup c.sceneprotos name with
    | none => ⟨c, [], [], some .protoNotFound⟩
    | some proto =>
      if 0 < proto.levels.length then
        if rml then
          match popLevels rm c.scenes proto.levels with
          | (s2, ds, some e) => ⟨{ c with scenes := s2 }, [], ds, some e⟩
          | (s2, ds, none) =>
            let cB := { c with scenes := s2, sceneprotos := popKey c.sceneprotos name }
            ⟨cB, [cB], ds ++ (if rm then [pathJoin sceneprotoDirPath name] else []), none⟩
        else ⟨c, [], [], some .protoHasLevels⟩
      else
        let cB := { c with sceneprotos := popKey c.sceneprotos name }
        ⟨cB, [cB], if rm then [pathJoin sceneprotoDirPath name] else [], none⟩
  else ⟨c, [c], [], none⟩

/-- The check_name function: upper-case the first character when it is lowercase,
return the name unchanged otherwise; an empty name makes the Python
index expression raise IndexError. -/
def check_name : List Char → Option (List Char)
  | [] => none
  | c :: rest =>
    if c.isLower then some (Char.toUpper c :: rest) else some (c :: rest)

/-- One entry of a directory listing during update_config: its name,
whether it is a directory, and the content of its Model.elm when that
file exists. -/
structure Entry where
  name : String
  isDir : Bool
  model : Option (List Char)
deriving DecidableEq

/-- Insert an entry into a list sorted by the joined path, keeping it
after equal keys (Python sorted is stable). -/
def insertEntry (dir : String) (e : Entry) : List Entry → List Entry
  | [] => [e]
  | x :: xs =>
    if lexLt (pathJoin dir e.name).toList (pathJoin dir x.name).toList then
      e :: x :: xs
    else x :: insertEntry dir e xs

/-- The sort sorted(os.listdir(dir), key equal to os.path.join(dir, name)):
stable sort of the listing by the joined path. -/
def sortEntries (dir : String) : List Entry → List Entry
  | [] => []
  | e :: es => insertEntry dir e (sortEntries dir es)

/-- The two manifest fields Messenger.__update_scene reads and
writes (it touches no other field of the manifest). -/
structure SceneMaps where
  scenes : List (String × Scene)
  sceneprotos : List (String × SceneProto)
deriving DecidableEq

/-- The loop body of Messenger.__update_scene for one listed entry:
skip non-directories and directories without a Model.elm; for a
sceneproto record the raw marker and an empty levels list; for a scene
holding the LevelInit marker whose import pattern matches, record the
back-reference and append the scene name to the prototype levels list
(a Python KeyError when the prototype is not in the map), otherwise
record the scene with the raw marker only. -/
def procScene (isProto : Bool) (st : SceneMaps) (e : Entry) : Except MErr SceneMaps :=
  if e.isDir then
    match e.model with
    | none => .ok st
    | some content =>
      if isProto then
        .ok ⟨st.scenes, setKey st.sceneprotos e.name ⟨containsSub rawMarker content, []⟩⟩
      else
        let raw := containsSub rawMarker content
        match (if containsSub levelInitMarker content then searchProto content else none) with
        | some p =>
          match lookup st.sceneprotos p with
          | none => .error .keyError
          | some proto =>
            .ok ⟨setKey st.scenes e.name ⟨some p, raw⟩,
                 setKey st.sceneprotos p { proto with levels := proto.levels ++ [e.name] }⟩
        | none => .ok ⟨setKey st.scenes e.name ⟨none, raw⟩, st.sceneprotos⟩
  else .ok st

/-- The pass Messenger.__update_scene: process the sorted listing of one
directory entry by entry; a KeyError aborts the pass. -/
def procDir (isProto : Bool) : SceneMaps → List Entry → Except MErr SceneMaps
  | st, [] => .ok st
  | st, e :: es =>
    match procScene isProto st e with
    | .error m => .error m
    | .ok st2 => procDir isProto st2 es

/-- The back-reference a scene entry contributes during the scenes
pass: present exactly when the entry is a directory with a Model.elm
whose content holds the LevelInit marker and the import pattern
matches. -/
def backrefOf (e : Entry) : Option String :=
  if e.isDir then
    match e.model with
    | some content =>
      if containsSub levelInitMarker content then searchProto content else none
    | none => none
  else none

/-- The level names a given prototype collects from a scene entry
list, in list order. -/
def levelNames (es : List Entry) (p : String) : List String :=
  (es.filter (fun e => decide (backrefOf e = some p))).map (fun e => e.name)

/-- The git replies update_config observes: whether the project is
inside a git work tree, whether the .messenger checkout is one, its
origin remote url, its exact tag, and its upstream branch (already
stripped, as the Python code strips the command output). -/
structure GitEnv where
  insideWorkTree : Bool
  messengerGit : Bool
  remoteUrl : Option String
  exactTag : Option String
  upstreamBranch : Option String
deriving DecidableEq

/-- The branch name for origin/main. -/
def originMain : String := "origin/main"

/-- The branch name for origin/master. -/
def originMaster : String := "origin/master"

/-- The template_repo object update_config rebuilds from the
.messenger checkout: blank on every lookup failure; an exact tag wins;
an upstream branch other than origin/main or origin/master is recorded
with the origin/ prefix dropped (seven characters). -/
def templateRepoFrom (g : GitEnv) : TemplateRepo :=
  if g.messengerGit then
    ⟨(g.remoteUrl).getD "",
     match g.exactTag with
     | some t => t
     | none =>
       match g.upstreamBranch with
       | some b => if b = originMain ∨ b = originMaster then "" else b.drop 7
       | none => ""⟩
  else ⟨"", ""⟩

/-- The filesystem state update_config reads: the listing of the
sceneprotos directory when it exists, and of the scenes directory when
it exists. -/
structure FS where
  sceneprotoDir : Option (List Entry)
  sceneDir : Option (List Entry)
deriving DecidableEq

/-- The two reconciliation passes of update_config: the sceneprotos
directory first (when present), then the scenes directory (listed as
empty when it was just created), both sorted by joined path, starting
from freshly emptied maps. -/
def reconcileMaps (protoDir : Option (List Entry)) (sceneEntries : List Entry) :
    Except MErr SceneMaps :=
  match (match protoDir with
         | some es => procDir true ⟨[], []⟩ (sortEntries sceneprotoDirPath es)
         | none => Except.ok ⟨[], []⟩) with
  | .error m => .error m
  | .ok st1 => procDir false st1 (sortEntries sceneDirPath sceneEntries)

/-- The reconciler Messenger.update_config: re-stamp the version, rebuild
template_repo from the checkout, keep auto_commit only when the
project is a git work tree and it was already set, empty and rebuild
the scenes and sceneprotos maps from the directory tree (creating the
scenes directory when missing), and dump once at the end; a KeyError
of the scenes pass aborts before the dump. -/
def updateConfig (g : GitEnv) (c : Config) (fs : FS) : Except MErr (Config × FS) :=
  match reconcileMaps fs.sceneprotoDir (fs.sceneDir.getD []) with
  | .error m => .error m
  | .ok st =>
    .ok ({ version := some apiVersion,
           template_repo := templateRepoFrom g,
           auto_commit := g.insideWorkTree && c.auto_commit,
           scenes := st.scenes,
           sceneprotos := st.sceneprotos },
         { fs with sceneDir := some (fs.sceneDir.getD []) })

/-- A fragment of template text: literal text or a positional
placeholder marker carrying its index. -/
inductive Tok
  | lit : String → Tok
  | mark : Nat → Tok
deriving DecidableEq

/-- Modelled from the spec: the Updater class lives in
messengercli/updater.py, which is not part of the source tree here;
only its call sites are.  Per the spec the engine copies each source
template to its destination on construction, and its only state is how
many tokens are resolved so far. -/
structure Updater where
  dsts : List (List Tok)
  count : Nat
deriving DecidableEq

/-- Modelled from the spec: construct the engine over the copied
destination texts with no token resolved yet. -/
def updaterNew (srcs : List (List Tok)) : Updater := ⟨srcs, 0⟩

/-- Modelled from the spec: one apply step.  The next unresolved
positional marker (the one whose index equals the count of tokens
resolved so far; template authors number markers left to right in raw
text order across all destination files) has every occurrence of its
placeholder replaced by the value across all destinations, and the
count advances.  A value supplied when no marker with the current
index remains changes no text. -/
def Updater.rep (u : Updater) (v : String) : Updater :=
  ⟨u.dsts.map (fun d => d.map (fun t =>
      match t with
      | Tok.mark i => if i = u.count then Tok.lit v else Tok.mark i
      | Tok.lit s => Tok.lit s)),
   u.count + 1⟩

/-- The JSON rendering of a boolean. -/
def jsonOfBool (b : Bool) : String := if b then "true" else "false"

/-- The JSON rendering of a string (the names in play need no escaping). -/
def quoteStr (s : String) : String := "\"" ++ s ++ "\""

/-- The JSON rendering of a scene record, keys in insertion order: the
sceneproto key (only when present, and it is always inserted before
raw) then the raw key. -/
def dumpScene (s : Scene) : String :=
  match s.sceneproto with
  | some p => "\x7b\"sceneproto\": " ++ quoteStr p ++ ", \"raw\": " ++ jsonOfBool s.raw ++ "\x7d"
  | none => "\x7b\"raw\": " ++ jsonOfBool s.raw ++ "\x7d"

/-- The JSON rendering of a string list. -/
def dumpStrList : List String → String
  | [] => ""
  | [l] => quoteStr l
  | l :: rest => quoteStr l ++ ", " ++ dumpStrList rest

/-- The JSON rendering of a sceneproto record, keys in insertion order. -/
def dumpProto (p : SceneProto) : String :=
  "\x7b\"raw\": " ++ jsonOfBool p.raw ++ ", \"levels\": [" ++ dumpStrList p.levels ++ "]\x7d"

/-- The JSON rendering of an association list, entries in order. -/
def dumpMap {α : Type} (f : α → String) : List (String × α) → String
  | [] => ""
  | [(k, v)] => quoteStr k ++ ": " ++ f v
  | (k, v) :: rest => quoteStr k ++ ": " ++ f v ++ ", " ++ dumpMap f rest

/-- The JSON rendering of the optional version field. -/
def dumpVersion : Option String → String
  | some v => quoteStr v
  | none => "null"

/-- The dump_config write: json.dump with fixed options is a deterministic
function of the manifest; this deterministic rendering (whitespace
simplified) stands for the bytes it writes. -/
def dumpConfig (c : Config) : String :=
  "\x7b\"version\": " ++ dumpVersion c.version ++
  ", \"template_repo\": \x7b\"url\": " ++ quoteStr c.template_repo.url ++
  ", \"tag\": " ++ quoteStr c.template_repo.tag ++ "\x7d" ++
  ", \"auto_commit\": " ++ jsonOfBool c.auto_commit ++
  ", \"scenes\": \x7b" ++ dumpMap dumpScene c.scenes ++ "\x7d" ++
  ", \"sceneprotos\": \x7b" ++ dumpMap dumpProto c.sceneprotos ++ "\x7d\x7d"

/-- A scene name used in concrete instances. -/
def nameFoo : String := "Foo"

/-- A sceneproto name used in concrete instances. -/
def nameBoss : String := "Boss"

/-- A level name used in concrete instances. -/
def nameBoss1 : String := "Boss1"

/-- A sceneproto name used in concrete instances. -/
def nameP : String := "P"

/-- A level name used in concrete instances. -/
def nameL1 : String := "L1"

/-- A level name used in concrete instances. -/
def nameL2 : String := "L2"

/-- A sceneproto name that no manifest of the instances holds. -/
def nameGhost : String := "Ghost"

/-- A stale manifest version. -/
def oldVersion : String := "1.0.0"

/-- A fresh valid manifest. -/
def cEmpty : Config := ⟨some apiVersion, ⟨"", ""⟩, false, [], []⟩

/-- A manifest whose version field is absent. -/
def cNoVersion : Config := { cEmpty with version := none }

/-- A manifest recorded by an older tool version. -/
def cOldVersion : Config := { cEmpty with version := some oldVersion }

/-- A manifest holding one plain scene named Foo. -/
def cFooScene : Config := { cEmpty with scenes := [(nameFoo, ⟨none, false⟩)] }

/-- A manifest holding one sceneproto named Boss with no levels. -/
def cBossProto : Config := { cEmpty with sceneprotos := [(nameBoss, ⟨false, []⟩)] }

/-- A manifest where sceneproto P owns levels L1 and L2. -/
def cCascade : Config :=
  { cEmpty with
    scenes := [(nameL1, ⟨some nameP, false⟩), (nameL2, ⟨some nameP, false⟩)],
    sceneprotos := [(nameP, ⟨false, [nameL1, nameL2]⟩)] }

/-- Model.elm content of a raw sceneproto. -/
def protoModelContent : List Char := ("import Messenger.Scene.RawScene").toList

/-- Model.elm content of a level instantiated from Boss. -/
def levelModelContent : List Char :=
  ("-- LevelInit\nimport SceneProtos.Boss.Model\n").toList

/-- Model.elm content holding the LevelInit marker but no line
matching the import pattern. -/
def unparsableLevelContent : List Char := ("-- LevelInit, nothing imported\n").toList

/-- Model.elm content whose import pattern names the absent
sceneproto Ghost. -/
def ghostLevelContent : List Char :=
  ("-- LevelInit\nimport SceneProtos.Ghost.Model\n").toList

/-- Directory entry of the Boss sceneproto. -/
def entryBoss : Entry := ⟨nameBoss, true, some protoModelContent⟩

/-- Directory entry of the Boss1 level. -/
def entryBoss1 : Entry := ⟨nameBoss1, true, some levelModelContent⟩

/-- Directory entry of a level referencing the absent Ghost proto. -/
def entryLost : Entry := ⟨nameL1, true, some ghostLevelContent⟩

/-- Directory entry of a scene with an unparsable back-reference. -/
def entryOdd : Entry := ⟨nameL2, true, some unparsableLevelContent⟩

/-- Git replies with nothing available. -/
def gQuiet : GitEnv := ⟨false, false, none, none, none⟩

/-- A filesystem with the Boss proto directory and the Boss1 level
directory. -/
def fsBoss : FS := ⟨some [entryBoss], some [entryBoss1]⟩

/-- The manifest update_config derives from fsBoss under gQuiet. -/
def cReconciled : Config :=
  ⟨some apiVersion, ⟨"", ""⟩, false,
   [(nameBoss1, ⟨some nameBoss, false⟩)],
   [(nameBoss, ⟨true, [nameBoss1]⟩)]⟩

theorem lookup_setKey {α : Type} (m : List (String × α)) (key q : String) (v : α) :
    lookup (setKey m key v) q = if key = q then some v else lookup m q := by
  induction m with
  | nil => by_cases hq : key = q <;> simp [setKey, lookup, hq]
  | cons hd tl ih =>
    obtain ⟨k, w⟩ := hd
    by_cases hk : k = key
    · subst hk
      simp only [setKey, if_pos rfl, lookup]
      by_cases hq : k = q <;> simp [lookup, hq]
    · simp only [setKey, if_neg hk, lookup]
      by_cases hkq : k = q
      · have hq : ¬ key = q := fun he => hk (hkq.trans he.symm)
        simp [hkq, hq]
      · simp [hkq, ih]

theorem lookup_popKey {α : Type} (m : List (String × α)) (k q : String) (h : q ≠ k) :
    lookup (popKey m k) q = lookup m q := by
  induction m with
  | nil => rfl
  | cons hd tl ih =>
    obtain ⟨k2, w⟩ := hd
    by_cases hk : k2 = k
    · subst hk
      have hkq : ¬ k2 = q := fun he => h he.symm
      simp [popKey, lookup, hkq]
    · by_cases hq : k2 = q <;> simp [popKey, lookup, hk, hq, ih, h]

theorem lookup_none_of_not_mem {α : Type} (m : List (String × α)) (q : String)
    (h : q ∉ m.map Prod.fst) : lookup m q = none := by
  induction m with
  | nil => rfl
  | cons hd tl ih =>
    obtain ⟨k, w⟩ := hd
    simp only [List.map_cons, List.mem_cons] at h
    push_neg at h
    have : ¬ k = q := fun he => h.1 he.symm
    simp [lookup, this, ih h.2]

theorem lookup_popKey_self {α : Type} (m : List (String × α)) (k : String)
    (h : (m.map Prod.fst).Nodup) : lookup (popKey m k) k = none := by
  induction m with
  | nil => rfl
  | cons hd tl ih =>
    obtain ⟨k2, w⟩ := hd
    simp only [List.map_cons, List.nodup_cons] at h
    by_cases hk : k2 = k
    · subst hk
      simpa [popKey] using lookup_none_of_not_mem tl k2 h.1
    · simp [popKey, lookup, hk, ih h.2]

theorem popKey_sublist {α : Type} (m : List (String × α)) (k : String) :
    List.Sublist (popKey m k) m := by
  induction m with
  | nil => simp [popKey]
  | cons hd tl ih =>
    obtain ⟨k2, w⟩ := hd
    by_cases hk : k2 = k
    · have he : popKey ((k2, w) :: tl) k = tl := by simp [popKey, hk]
      rw [he]
      exact List.sublist_cons_self (k2, w) tl
    · have he : popKey ((k2, w) :: tl) k = (k2, w) :: popKey tl k := by simp [popKey, hk]
      rw [he]
      exact List.Sublist.cons₂ (k2, w) ih

theorem keys_popKey_nodup {α : Type} (m : List (String × α)) (k : String)
    (h : (m.map Prod.fst).Nodup) : ((popKey m k).map Prod.fst).Nodup :=
  List.Nodup.sublist (List.Sublist.map Prod.fst (popKey_sublist m k)) h

theorem popLevels_ok (rm : Bool) (ls : List String) :
    ∀ s : List (String × Scene), (s.map Prod.fst).Nodup → ls.Nodup →
      (∀ l ∈ ls, hasKey s l = true) →
      ∃ s2, popLevels rm s ls =
          (s2, (if rm then ls.map (fun l => pathJoin sceneDirPath l) else []), none) ∧
        (∀ l ∈ ls, hasKey s2 l = false) ∧
        (∀ q, q ∉ ls → lookup s2 q = lookup s q) ∧
        (s2.map Prod.fst).Nodup := by
  induction ls with
  | nil =>
    intro s hnd _ _
    exact ⟨s, by simp [popLevels], by simp, fun q _ => rfl, hnd⟩
  | cons l ls ih =>
    intro s hnd hlnd hmem
    have hl : hasKey s l = true := hmem l (by simp)
    have hnotmem : l ∉ ls := (List.nodup_cons.mp hlnd).1
    have hmem2 : ∀ x ∈ ls, hasKey (popKey s l) x = true := by
      intro x hx
      have hxl : x ≠ l := fun he => hnotmem (he ▸ hx)
      rw [hasKey, lookup_popKey s l x hxl]
      exact hmem x (List.mem_cons_of_mem _ hx)
    obtain ⟨s2, heq, hgone, hpres, hnd3⟩ :=
      ih (popKey s l) (keys_popKey_nodup s l hnd) (List.nodup_cons.mp hlnd).2 hmem2
    refine ⟨s2, ?_, ?_, ?_, hnd3⟩
    · simp only [popLevels, hl, if_true, heq]
      cases rm <;> simp
    · intro x hx
      rcases List.mem_cons.mp hx with he | hx2
      · rw [he, hasKey, hpres l hnotmem, lookup_popKey_self s l hnd]
        rfl
      · exact hgone x hx2
    · intro q hq
      have hql : q ≠ l := fun he => hq (by simp [he])
      have hqls : q ∉ ls := fun h2 => hq (List.mem_cons_of_mem _ h2)
      rw [hpres q hqls, lookup_popKey s l q hql]

/-- C3: add_level fails with NotFound when the prototype is absent,
fails with AlreadyExists when the name is already among scenes, and
otherwise records the scene with the raw flag copied from the
prototype (add_level takes no raw parameter, so it cannot be set
independently) and persists two manifests in this order: first the one
with the name registered in the scenes map only, then the one with the
name additionally appended to the prototype levels list. -/
theorem add_level_spec (c : Config) (name sp : String) :
    (lookup c.sceneprotos sp = none →
       add_level c name sp = ⟨c, [], [], some MErr.protoNotFound⟩) ∧
    (∀ proto, lookup c.sceneprotos sp = some proto → hasKey c.scenes name = true →
       add_level c name sp = ⟨c, [], [], some MErr.levelOrSceneExists⟩) ∧
    (∀ proto, lookup c.sceneprotos sp = some proto → hasKey c.scenes name = false →
       (add_level c name sp).err = none ∧
       lookup (add_level c name sp).config.scenes name = some ⟨some sp, proto.raw⟩ ∧
       lookup (add_level c name sp).config.sceneprotos sp =
         some { proto with levels := proto.levels ++ [name] } ∧
       (add_level c name sp).dumps =
         [{ c with scenes := setKey c.scenes name ⟨some sp, proto.raw⟩ },
          (add_level c name sp).config]) := by
  refine ⟨?_, ?_, ?_⟩
  · intro h; simp [add_level, h]
  · intro proto hp hs; simp [add_level, hp, hs]
  · intro proto hp hs
    have he : add_level c name sp =
        ⟨{ c with
            scenes := setKey c.scenes name ⟨some sp, proto.raw⟩,
            sceneprotos := setKey c.sceneprotos sp
              { proto with levels := proto.levels ++ [name] } },
         [{ c with scenes := setKey c.scenes name ⟨some sp, proto.raw⟩ },
          { c with
            scenes := setKey c.scenes name ⟨some sp, proto.raw⟩,
            sceneprotos := setKey c.sceneprotos sp
              { proto with levels := proto.levels ++ [name] } }], [], none⟩ := by
      simp [add_level, hp, hs]
    rw [he]
    refine ⟨rfl, ?_, ?_, rfl⟩
    · rw [lookup_setKey]; simp
    · rw [lookup_setKey]; simp

/-- C3 witness: the missing-prototype failure on the fresh manifest
and the successful level creation on the Boss manifest. -/
theorem add_level_spec_witness :
    add_level cEmpty nameBoss1 nameBoss = ⟨cEmpty, [], [], some MErr.protoNotFound⟩ ∧
    (add_level cBossProto nameBoss1 nameBoss).err = none ∧
    lookup (add_level cBossProto nameBoss1 nameBoss).config.sceneprotos nameBoss =
      some ⟨false, [nameBoss1]⟩ ∧
    lookup (add_level cBossProto nameBoss1 nameBoss).config.scenes nameBoss1 =
      some ⟨some nameBoss, false⟩ := by
  refine ⟨?_, ?_, ?_, ?_⟩
  · exact (add_level_spec cEmpty nameBoss1 nameBoss).1 rfl
  · exact ((add_level_spec cBossProto nameBoss1 nameBoss).2.2 ⟨false, []⟩ rfl rfl).1
  · exact ((add_level_spec cBossProto nameBoss1 nameBoss).2.2 ⟨false, []⟩ rfl rfl).2.2.1
  · exact ((add_level_spec cBossProto nameBoss1 nameBoss).2.2 ⟨false, []⟩ rfl rfl).2.1

/-- C4: removing a sceneproto with a nonempty levels list and without
the remove-levels flag fails with a ValidationError and leaves the
manifest untouched and undumped; with the flag, every dependent level
leaves the scenes map, the prototype leaves the sceneprotos map, and
the removed directories (when the rm flag is set) are the level
directories first and the prototype directory after; removing a plain
scene carrying a back-reference also erases its name from the owning
prototype levels list. -/
theorem remove_spec (c : Config) (P name : String) (rm : Bool) :
    (∀ proto, lookup c.sceneprotos P = some proto → proto.levels ≠ [] →
       removeCmd c kSceneproto P rm false = ⟨c, [], [], some MErr.protoHasLevels⟩) ∧
    (∀ proto, lookup c.sceneprotos P = some proto → proto.levels ≠ [] →
       (c.scenes.map Prod.fst).Nodup → (c.sceneprotos.map Prod.fst).Nodup →
       proto.levels.Nodup → (∀ l ∈ proto.levels, hasKey c.scenes l = true) →
       (removeCmd c kSceneproto P rm true).err = none ∧
       (∀ l ∈ proto.levels,
          hasKey (removeCmd c kSceneproto P rm true).config.scenes l = false) ∧
       hasKey (removeCmd c kSceneproto P rm true).config.sceneprotos P = false ∧
       (removeCmd c kSceneproto P rm true).rmdirs =
         (if rm then proto.levels.map (fun l => pathJoin sceneDirPath l) else []) ++
         (if rm then [pathJoin sceneprotoDirPath P] else [])) ∧
    (∀ sc sp proto, lookup c.scenes name = some sc → sc.sceneproto = some sp →
       lookup c.sceneprotos sp = some proto → name ∈ proto.levels →
       (c.scenes.map Prod.fst).Nodup →
       (removeCmd c kScene name rm false).err = none ∧
       hasKey (removeCmd c kScene name rm false).config.scenes name = false ∧
       lookup (removeCmd c kScene name rm false).config.sceneprotos sp =
         some { proto with levels := proto.levels.erase name } ∧
       (removeCmd c kScene name rm false).dumps =
         [(removeCmd c kScene name rm false).config]) := by
  refine ⟨?_, ?_, ?_⟩
  · intro proto hp hne
    have hpos : 0 < proto.levels.length := List.length_pos.mpr hne
    simp [removeCmd, kScene, kSceneproto, hp, hpos]
  · intro proto hp hne hnds hndp hlnd hmem
    have hpos : 0 < proto.levels.length := List.length_pos.mpr hne
    obtain ⟨s2, heq, hgone, _, _⟩ := popLevels_ok rm proto.levels c.scenes hnds hlnd hmem
    have hco : removeCmd c kSceneproto P rm true =
        ⟨{ c with scenes := s2, sceneprotos := popKey c.sceneprotos P },
         [{ c with scenes := s2, sceneprotos := popKey c.sceneprotos P }],
         (if rm then proto.levels.map (fun l => pathJoin sceneDirPath l) else []) ++
           (if rm then [pathJoin sceneprotoDirPath P] else []), none⟩ := by
      simp [removeCmd, kScene, kSceneproto, hp, hpos, heq]
    rw [hco]
    refine ⟨rfl, ?_, ?_, rfl⟩
    · intro l hl; exact hgone l hl
    · rw [hasKey, lookup_popKey_self c.sceneprotos P hndp]
      rfl
  · intro sc sp proto hsc hspr hp hmem hnds
    have hco : removeCmd c kScene name rm false =
        ⟨{ c with
            scenes := popKey c.scenes name,
            sceneprotos := setKey c.sceneprotos sp
              { proto with levels := proto.levels.erase name } },
         [{ c with
            scenes := popKey c.scenes name,
            sceneprotos := setKey c.sceneprotos sp
              { proto with levels := proto.levels.erase name } }],
         if rm then [pathJoin sceneDirPath name] else [], none⟩ := by
      simp [removeCmd, kScene, hsc, hspr, hp, hmem]
    rw [hco]
    refine ⟨rfl, ?_, ?_, rfl⟩
    · rw [hasKey, lookup_popKey_self c.scenes name hnds]
      rfl
    · rw [lookup_setKey]; simp

/-- C4 witness: the refusal, the cascade, and the scene detachment on
the manifest where sceneproto P owns levels L1 and L2. -/
theorem remove_spec_witness :
    removeCmd cCascade kSceneproto nameP true false =
      ⟨cCascade, [], [], some MErr.protoHasLevels⟩ ∧
    (removeCmd cCascade kSceneproto nameP true true).err = none ∧
    (removeCmd cCascade kSceneproto nameP true true).rmdirs =
      [pathJoin sceneDirPath nameL1, pathJoin sceneDirPath nameL2,
       pathJoin sceneprotoDirPath nameP] ∧
    (removeCmd cCascade kScene nameL1 false false).err = none ∧
    lookup (removeCmd cCascade kScene nameL1 false false).config.sceneprotos nameP =
      some ⟨false, [nameL2]⟩ := by
  refine ⟨?_, ?_, ?_, ?_, ?_⟩
  · exact (remove_spec cCascade nameP nameL1 true).1 ⟨false, [nameL1, nameL2]⟩ rfl (by decide)
  · exact ((remove_spec cCascade nameP nameL1 true).2.1 ⟨false, [nameL1, nameL2]⟩ rfl
      (by decide) (by decide) (by decide) (by decide) (by decide)).1
  · exact ((remove_spec cCascade nameP nameL1 true).2.1 ⟨false, [nameL1, nameL2]⟩ rfl
      (by decide) (by decide) (by decide) (by decide) (by decide)).2.2.2
  · exact ((remove_spec cCascade nameP nameL1 false).2.2 ⟨some nameP, false⟩ nameP
      ⟨false, [nameL1, nameL2]⟩ rfl rfl rfl (by decide) (by decide)).1
  · exact ((remove_spec cCascade nameP nameL1 false).2.2 ⟨some nameP, false⟩ nameP
      ⟨false, [nameL1, nameL2]⟩ rfl rfl rfl (by decide) (by decide)).2.2.1

/-- C1 counterexample: a manifest holding the plain scene Foo and no
sceneproto of that name; creating the sceneproto Foo succeeds, so
cross-namespace name collision does not make add_sceneproto fail. -/
theorem add_scene_cross_ns_counterexample :
    hasKey cFooScene.scenes nameFoo = true ∧
    hasKey cFooScene.sceneprotos nameFoo = false ∧
    (add_scene cFooScene nameFoo false true false).err = none := by
  exact ⟨rfl, rfl, rfl⟩

/-- C1 (amended): collision checking in add_scene is symmetric and
confined to the own namespace: creating a sceneproto fails with
AlreadyExists exactly when the name already exists among sceneprotos,
and creating a plain scene fails exactly when it already exists among
scenes; neither direction checks the other namespace. -/
theorem add_scene_collision_own_ns (c : Config) (scene : String) (raw init : Bool) :
    ((add_scene c scene raw true init).err = some MErr.protoExists ↔
       hasKey c.sceneprotos scene = true) ∧
    ((add_scene c scene raw false init).err = some MErr.sceneExists ↔
       hasKey c.scenes scene = true) := by
  constructor
  · by_cases h : hasKey c.sceneprotos scene = true <;> simp_all [add_scene]
  · by_cases h : hasKey c.scenes scene = true <;> simp_all [add_scene]

/-- C1 (amended) witness: the own-namespace collision test on the
manifest holding the plain scene Foo. -/
theorem add_scene_collision_own_ns_witness :
    ((add_scene cFooScene nameFoo false true false).err = some MErr.protoExists ↔
       hasKey cFooScene.sceneprotos nameFoo = true) ∧
    ((add_scene cFooScene nameFoo false false false).err = some MErr.sceneExists ↔
       hasKey cFooScene.scenes nameFoo = true) :=
  add_scene_collision_own_ns cFooScene nameFoo false false

/-- C2: loading the manifest rejects a missing or mismatching version
field before any operation can run (a Messenger object is only
constructed from a successful load), and an exactly matching version
loads the manifest unchanged: no in-place upgrade happens on load. -/
theorem messenger_init_version_gate (c : Config) :
    (messengerInit none = .error MErr.noConfigFile) ∧
    (c.version = none → messengerInit (some c) = .error MErr.noVersionField) ∧
    (∀ v, c.version = some v → v ≠ apiVersion →
       messengerInit (some c) = .error MErr.versionMismatch) ∧
    (c.version = some apiVersion → messengerInit (some c) = .ok c) := by
  refine ⟨rfl, ?_, ?_, ?_⟩
  · intro h; simp [messengerInit, h]
  · intro v hv hne; simp [messengerInit, hv, hne]
  · intro h; simp [messengerInit, h]

/-- C2 witness: the gate applied to the three concrete manifests. -/
theorem messenger_init_version_gate_witness :
    messengerInit (some cNoVersion) = .error MErr.noVersionField ∧
    messengerInit (some cOldVersion) = .error MErr.versionMismatch ∧
    messengerInit (some cEmpty) = .ok cEmpty := by
  refine ⟨?_, ?_, ?_⟩
  · exact (messenger_init_version_gate cNoVersion).2.1 rfl
  · exact (messenger_init_version_gate cOldVersion).2.2.1 oldVersion rfl (by decide)
  · exact (messenger_init_version_gate cEmpty).2.2.2 rfl

/-- C5: when a scene name is free, add_scene succeeds, and calling
add_scene again with the same name (non-proto) fails with
AlreadyExists, leaving the manifest exactly as the first call left it:
nothing is mutated and nothing is dumped by the failing call. -/
theorem add_scene_duplicate (c : Config) (name : String) (raw init raw2 init2 : Bool)
    (h : hasKey c.scenes name = false) :
    (add_scene c name raw false init).err = none ∧
    add_scene (add_scene c name raw false init).config name raw2 false init2 =
      ⟨(add_scene c name raw false init).config, [], [], some MErr.sceneExists⟩ := by
  have h1 : add_scene c name raw false init =
      ⟨{ c with scenes := setKey c.scenes name ⟨none, raw⟩ },
       [{ c with scenes := setKey c.scenes name ⟨none, raw⟩ }], [], none⟩ := by
    simp [add_scene, h]
  rw [h1]
  refine ⟨rfl, ?_⟩
  have h2 : hasKey (setKey c.scenes name (⟨none, raw⟩ : Scene)) name = true := by
    rw [hasKey, lookup_setKey]
    simp
  simp [add_scene, h2]

/-- C5 witness: the duplicate-scene test on the fresh manifest. -/
theorem add_scene_duplicate_witness :
    (add_scene cEmpty nameFoo false false false).err = none ∧
    add_scene (add_scene cEmpty nameFoo false false false).config nameFoo true false true =
      ⟨(add_scene cEmpty nameFoo false false false).config, [], [],
       some MErr.sceneExists⟩ :=
  add_scene_duplicate cEmpty nameFoo false false true true rfl

theorem procDir_cons (b : Bool) (st : SceneMaps) (e : Entry) (es : List Entry)
    (out : SceneMaps) (h : procDir b st (e :: es) = .ok out) :
    ∃ st2, procScene b st e = .ok st2 ∧ procDir b st2 es = .ok out := by
  cases hs : procScene b st e with
  | error m => simp [procDir, hs] at h
  | ok st2 =>
    simp only [procDir, hs] at h
    exact ⟨st2, rfl, h⟩

theorem procScene_protoMap (st : SceneMaps) (e : Entry) (st2 : SceneMaps)
    (h : procScene false st e = .ok st2) (p : String) :
    (backrefOf e = some p →
       ∃ proto, lookup st.sceneprotos p = some proto ∧
         st2.sceneprotos = setKey st.sceneprotos p
           { proto with levels := proto.levels ++ [e.name] }) ∧
    (backrefOf e ≠ some p → lookup st2.sceneprotos p = lookup st.sceneprotos p) := by
  by_cases hd : e.isDir
  · cases hm : e.model with
    | none =>
      have hbr : backrefOf e = none := by simp [backrefOf, hd, hm]
      simp only [procScene, hd, if_true, hm] at h
      constructor
      · intro hbp; rw [hbr] at hbp; exact absurd hbp (by simp)
      · intro _
        have h2 : st = st2 := by injection h
        rw [← h2]
    | some content =>
      have hbr : backrefOf e =
          (if containsSub levelInitMarker content then searchProto content else none) := by
        simp [backrefOf, hd, hm]
      cases hsp : (if containsSub levelInitMarker content then searchProto content else none) with
      | none =>
        simp only [procScene, hd, if_true, hm, hsp, Bool.false_eq_true, if_false] at h
        constructor
        · intro hbp; rw [hbr, hsp] at hbp; exact absurd hbp (by simp)
        · intro _
          have h2 : (⟨setKey st.scenes e.name ⟨none, containsSub rawMarker content⟩,
              st.sceneprotos⟩ : SceneMaps) = st2 := by injection h
          rw [← h2]
      | some q =>
        cases hlq : lookup st.sceneprotos q with
        | none => simp [procScene, hd, hm, hsp, hlq] at h
        | some proto =>
          simp only [procScene, hd, if_true, hm, hsp, hlq] at h
          have h2 : (⟨setKey st.scenes e.name ⟨some q, containsSub rawMarker content⟩,
              setKey st.sceneprotos q
                { proto with levels := proto.levels ++ [e.name] }⟩ : SceneMaps) = st2 := by
            injection h
          constructor
          · intro hbp
            rw [hbr, hsp] at hbp
            have hqp : q = p := by injection hbp
            subst hqp
            exact ⟨proto, hlq, by rw [← h2]⟩
          · intro hbp
            rw [hbr, hsp] at hbp
            have hqp : ¬ q = p := fun he => hbp (by rw [he])
            rw [← h2]
            show lookup (setKey st.sceneprotos q _) p = lookup st.sceneprotos p
            rw [lookup_setKey]
            simp [hqp]
  · have hbr : backrefOf e = none := by simp [backrefOf, hd]
    simp only [procScene, hd, Bool.false_eq_true, if_false] at h
    constructor
    · intro hbp; rw [hbr] at hbp; exact absurd hbp (by simp)
    · intro _
      have h2 : st = st2 := by injection h
      rw [← h2]

theorem procDir_scenes_levels (es : List Entry) :
    ∀ st out, procDir false st es = .ok out → ∀ p : String,
      (∀ proto, lookup st.sceneprotos p = some proto →
         lookup out.sceneprotos p =
           some { proto with levels := proto.levels ++ levelNames es p }) ∧
      (lookup st.sceneprotos p = none → lookup out.sceneprotos p = none) := by
  induction es with
  | nil =>
    intro st out h p
    have h2 : st = out := by
      simp only [procDir] at h
      injection h
    subst h2
    constructor
    · intro proto hl; rw [hl]; simp [levelNames]
    · exact fun h2 => h2
  | cons e es ih =>
    intro st out h p
    obtain ⟨st2, hs, hrest⟩ := procDir_cons false st e es out h
    have hmap := procScene_protoMap st e st2 hs p
    by_cases hbp : backrefOf e = some p
    · obtain ⟨proto0, hl0, hset⟩ := hmap.1 hbp
      have hnames : levelNames (e :: es) p = e.name :: levelNames es p := by
        simp [levelNames, List.filter_cons, hbp]
      constructor
      · intro proto hl
        rw [hl0] at hl
        have hpe : proto0 = proto := by injection hl
        subst hpe
        have hl2 : lookup st2.sceneprotos p =
            some { proto0 with levels := proto0.levels ++ [e.name] } := by
          rw [hset, lookup_setKey]
          simp
        have h3 := (ih st2 out hrest p).1 _ hl2
        rw [h3, hnames]
        simp
      · intro hnone; rw [hl0] at hnone; exact absurd hnone (by simp)
    · have hpres : lookup st2.sceneprotos p = lookup st.sceneprotos p := hmap.2 hbp
      have hnames : levelNames (e :: es) p = levelNames es p := by
        simp [levelNames, List.filter_cons, hbp]
      constructor
      · intro proto hl
        have h3 := (ih st2 out hrest p).1 proto (by rw [hpres]; exact hl)
        rw [h3, hnames]
      · intro hnone
        exact (ih st2 out hrest p).2 (by rw [hpres]; exact hnone)

theorem procDir_protos_levels_nil (es : List Entry) :
    ∀ st out, procDir true st es = .ok out →
      (∀ p proto, lookup st.sceneprotos p = some proto → proto.levels = []) →
      ∀ p proto, lookup out.sceneprotos p = some proto → proto.levels = [] := by
  induction es with
  | nil =>
    intro st out h hinv
    have h2 : st = out := by
      simp only [procDir] at h
      injection h
    subst h2
    exact hinv
  | cons e es ih =>
    intro st out h hinv
    obtain ⟨st2, hs, hrest⟩ := procDir_cons true st e es out h
    apply ih st2 out hrest
    intro p proto hl
    by_cases hd : e.isDir
    · cases hm : e.model with
      | none =>
        simp only [procScene, hd, if_true, hm] at hs
        have h2 : st = st2 := by injection hs
        rw [← h2] at hl
        exact hinv p proto hl
      | some content =>
        simp only [procScene, hd, if_true, hm] at hs
        have h2 : (⟨st.scenes,
            setKey st.sceneprotos e.name ⟨containsSub rawMarker content, []⟩⟩ :
            SceneMaps) = st2 := by injection hs
        rw [← h2] at hl
        simp only at hl
        rw [lookup_setKey] at hl
        by_cases hep : e.name = p
        · rw [if_pos hep] at hl
          have : (⟨containsSub rawMarker content, []⟩ : SceneProto) = proto := by
            injection hl
          rw [← this]
        · rw [if_neg hep] at hl
          exact hinv p proto hl
    · simp only [procScene, hd, Bool.false_eq_true, if_false] at hs
      have h2 : st = st2 := by injection hs
      rw [← h2] at hl
      exact hinv p proto hl

theorem reconcile_levels (pd : Option (List Entry)) (sl : List Entry) (st : SceneMaps)
    (h : reconcileMaps pd sl = .ok st) :
    ∀ p proto, lookup st.sceneprotos p = some proto →
      proto.levels = levelNames (sortEntries sceneDirPath sl) p := by
  intro p proto hl
  unfold reconcileMaps at h
  cases pd with
  | none =>
    simp only at h
    have hB := procDir_scenes_levels (sortEntries sceneDirPath sl) ⟨[], []⟩ st h p
    have : lookup (⟨[], []⟩ : SceneMaps).sceneprotos p = none := rfl
    rw [hB.2 this] at hl
    exact absurd hl (by simp)
  | some es =>
    simp only at h
    cases hp : procDir true ⟨[], []⟩ (sortEntries sceneprotoDirPath es) with
    | error m => rw [hp] at h; exact absurd h (by simp)
    | ok st1 =>
      rw [hp] at h
      have hA := procDir_protos_levels_nil (sortEntries sceneprotoDirPath es)
        ⟨[], []⟩ st1 hp (by intro p2 proto2 hl2; exact absurd hl2 (by simp [lookup]))
      have hB := procDir_scenes_levels (sortEntries sceneDirPath sl) st1 st h p
      cases hl1 : lookup st1.sceneprotos p with
      | none => rw [hB.2 hl1] at hl; exact absurd hl (by simp)
      | some proto0 =>
        have h3 := hB.1 proto0 hl1
        rw [h3] at hl
        have hpe : { proto0 with
            levels := proto0.levels ++ levelNames (sortEntries sceneDirPath sl) p } =
            proto := by injection hl
        have h0 : proto0.levels = [] := hA p proto0 hl1
        rw [← hpe, h0]
        simp

/-- C6: a successful update_config leaves the sceneprotos directory
listing untouched, materializes the scenes directory (as its previous
listing, or empty when it was missing), and, because the sceneprotos
pass runs first over the lexicographically sorted listing and
initializes every discovered prototype with an empty levels list
before the scenes pass appends back-references, every prototype of the
resulting manifest carries exactly the back-referencing scene names in
sorted directory-listing order. -/
theorem update_config_order (g : GitEnv) (c : Config) (fs : FS) (c2 : Config)
    (fs2 : FS) (h : updateConfig g c fs = .ok (c2, fs2)) :
    fs2.sceneprotoDir = fs.sceneprotoDir ∧
    fs2.sceneDir = some (fs.sceneDir.getD []) ∧
    ∀ p proto, lookup c2.sceneprotos p = some proto →
      proto.levels = levelNames (sortEntries sceneDirPath (fs.sceneDir.getD [])) p := by
  unfold updateConfig at h
  cases hr : reconcileMaps fs.sceneprotoDir (fs.sceneDir.getD []) with
  | error m => rw [hr] at h; exact absurd h (by simp)
  | ok st =>
    rw [hr] at h
    have h1 : ({ version := some apiVersion,
                 template_repo := templateRepoFrom g,
                 auto_commit := g.insideWorkTree && c.auto_commit,
                 scenes := st.scenes,
                 sceneprotos := st.sceneprotos } : Config) = c2 ∧
        ({ fs with sceneDir := some (fs.sceneDir.getD []) } : FS) = fs2 := by
      have := h
      injection this with h2
      injection h2 with ha hb
      exact ⟨ha, hb⟩
    obtain ⟨ha, hb⟩ := h1
    refine ⟨by rw [← hb], by rw [← hb], ?_⟩
    intro p proto hl
    rw [← ha] at hl
    exact reconcile_levels fs.sceneprotoDir (fs.sceneDir.getD []) st hr p proto hl

/-- C6 witness: reconciling the Boss filesystem records Boss1 as the
single level of Boss, in directory-listing order. -/
theorem update_config_order_witness :
    fsBoss.sceneDir = some (fsBoss.sceneDir.getD []) ∧
    (⟨true, [nameBoss1]⟩ : SceneProto).levels =
      levelNames (sortEntries sceneDirPath [entryBoss1]) nameBoss := by
  constructor
  · exact (update_config_order gQuiet cEmpty fsBoss cReconciled fsBoss rfl).2.1
  · exact (update_config_order gQuiet cEmpty fsBoss cReconciled fsBoss rfl).2.2
      nameBoss ⟨true, [nameBoss1]⟩ rfl

/-- C7: update_config is idempotent: with the git replies fixed and no
filesystem change between runs, a second run from the manifest and
filesystem the first run left produces exactly the same manifest and
filesystem, so the manifest bytes it persists are identical to those
of the first run. -/
theorem update_config_idempotent (g : GitEnv) (c : Config) (fs : FS) (c2 : Config)
    (fs2 : FS) (h : updateConfig g c fs = .ok (c2, fs2)) :
    updateConfig g c2 fs2 = .ok (c2, fs2) ∧
    ∀ c3 fs3, updateConfig g c2 fs2 = .ok (c3, fs3) →
      dumpConfig c3 = dumpConfig c2 := by
  have hmain : updateConfig g c2 fs2 = .ok (c2, fs2) := by
    unfold updateConfig at h
    cases hr : reconcileMaps fs.sceneprotoDir (fs.sceneDir.getD []) with
    | error m => rw [hr] at h; exact absurd h (by simp)
    | ok st =>
      rw [hr] at h
      have h1 := h
      injection h1 with h2
      injection h2 with ha hb
      subst ha
      subst hb
      unfold updateConfig
      have e2 : ({ fs with sceneDir := some (fs.sceneDir.getD []) } : FS).sceneDir.getD []
          = fs.sceneDir.getD [] := by simp
      rw [show ({ fs with sceneDir := some (fs.sceneDir.getD []) } : FS).sceneprotoDir
            = fs.sceneprotoDir from rfl, e2, hr]
      cases g.insideWorkTree <;> simp
  refine ⟨hmain, ?_⟩
  intro c3 fs3 h3
  rw [hmain] at h3
  have h4 : (c2, fs2) = (c3, fs3) := by injection h3
  have h5 : c2 = c3 := by injection h4
  rw [h5]

/-- C7 witness: the second reconciliation of the Boss filesystem
reproduces the manifest the first one made. -/
theorem update_config_idempotent_witness :
    updateConfig gQuiet cReconciled fsBoss = .ok (cReconciled, fsBoss) :=
  (update_config_idempotent gQuiet cEmpty fsBoss cReconciled fsBoss rfl).1

/-- C10: during the scenes pass, an entry whose Model.elm holds the
LevelInit marker and whose import pattern does match, naming a
prototype that is not a key of the sceneprotos map, makes the
reconciler raise an unhandled KeyError that aborts the whole pass,
rather than silently skipping the back-reference; the documented
silent skip happens when the pattern fails to match. -/
theorem reconcile_keyerror (st : SceneMaps) (e : Entry) (content : List Char)
    (p : String) (es : List Entry) (hd : e.isDir = true) (hm : e.model = some content)
    (hli : containsSub levelInitMarker content = true) :
    (searchProto content = some p → lookup st.sceneprotos p = none →
       procScene false st e = .error MErr.keyError ∧
       procDir false st (e :: es) = .error MErr.keyError) ∧
    (searchProto content = none →
       procScene false st e =
         .ok ⟨setKey st.scenes e.name ⟨none, containsSub rawMarker content⟩,
              st.sceneprotos⟩) := by
  constructor
  · intro hsp hlp
    have h1 : procScene false st e = .error MErr.keyError := by
      simp [procScene, hd, hm, hli, hsp, hlp]
    exact ⟨h1, by simp [procDir, h1]⟩
  · intro hsp
    simp [procScene, hd, hm, hli, hsp]

/-- C10 witness: the level entry naming the absent prototype Ghost
aborts the scenes pass with a KeyError, while the entry with an
unparsable back-reference is recorded with no back-reference at all. -/
theorem reconcile_keyerror_witness :
    procDir false ⟨[], []⟩ [entryLost] = .error MErr.keyError ∧
    procScene false ⟨[], []⟩ entryOdd =
      .ok ⟨setKey ([] : List (String × Scene)) entryOdd.name
             ⟨none, containsSub rawMarker unparsableLevelContent⟩, []⟩ := by
  constructor
  · exact ((reconcile_keyerror ⟨[], []⟩ entryLost ghostLevelContent nameGhost []
      rfl rfl rfl).1 rfl rfl).2
  · exact (reconcile_keyerror ⟨[], []⟩ entryOdd unparsableLevelContent nameGhost []
      rfl rfl rfl).2 rfl

/-- C8: the token engine consumes positional markers strictly left to
right in raw text order across both destination files: with markers in
combined text order A, B, A (the third a repeat of the first slot, B
occurring in both files), three applies put the first value in every
occurrence of the first marker, the second value in every occurrence
of the second regardless of file, the third value in the third; a
further value beyond the remaining markers changes no text. -/
theorem updater_positional (x y z w s1 s2 : String) :
    ((((updaterNew [[Tok.mark 0, Tok.lit s1, Tok.mark 1],
                    [Tok.mark 1, Tok.lit s2, Tok.mark 2]]).rep x).rep y).rep z =
       ⟨[[Tok.lit x, Tok.lit s1, Tok.lit y],
         [Tok.lit y, Tok.lit s2, Tok.lit z]], 3⟩) ∧
    (((((updaterNew [[Tok.mark 0, Tok.lit s1, Tok.mark 1],
                     [Tok.mark 1, Tok.lit s2, Tok.mark 2]]).rep x).rep y).rep z).rep w).dsts =
      [[Tok.lit x, Tok.lit s1, Tok.lit y],
       [Tok.lit y, Tok.lit s2, Tok.lit z]] := by
  exact ⟨rfl, rfl⟩

/-- C8 witness: the three applies at concrete values. -/
theorem updater_positional_witness :
    ((((updaterNew [[Tok.mark 0, Tok.lit nameL1, Tok.mark 1],
                    [Tok.mark 1, Tok.lit nameL2, Tok.mark 2]]).rep nameFoo).rep
        nameBoss).rep nameP =
       ⟨[[Tok.lit nameFoo, Tok.lit nameL1, Tok.lit nameBoss],
         [Tok.lit nameBoss, Tok.lit nameL2, Tok.lit nameP]], 3⟩) ∧
    (((((updaterNew [[Tok.mark 0, Tok.lit nameL1, Tok.mark 1],
                     [Tok.mark 1, Tok.lit nameL2, Tok.mark 2]]).rep nameFoo).rep
        nameBoss).rep nameP).rep nameGhost).dsts =
      [[Tok.lit nameFoo, Tok.lit nameL1, Tok.lit nameBoss],
       [Tok.lit nameBoss, Tok.lit nameL2, Tok.lit nameP]] :=
  updater_positional nameFoo nameBoss nameP nameGhost nameL1 nameL2

/-- C9: name normalization upper-cases exactly the first character
when it is lowercase and keeps every other character; a name whose
first character is not lowercase is returned unchanged. -/
theorem check_name_spec (c : Char) (rest : List Char) :
    (c.isLower = true → check_name (c :: rest) = some (Char.toUpper c :: rest)) ∧
    (c.isLower = false → check_name (c :: rest) = some (c :: rest)) := by
  constructor <;> intro h <;> simp [check_name, h]

/-- C9 witness: normalization of a lowercase-first and of a
capitalized name. -/
theorem check_name_spec_witness :
    check_name ('f' :: ("oo").toList) = some ('F' :: ("oo").toList) ∧
    check_name ('F' :: ("oo").toList) = some ('F' :: ("oo").toList) := by
  constructor
  · exact (check_name_spec 'f' (("oo").toList)).1 (by decide)
  · exact (check_name_spec 'F' (("oo").toList)).2 (by decide)

end Messenger
